import Mathlib

/-!
Verification of the vim-ghosttext WebSocket protocol engine
(`rplugin/python2/vim-ghosttext.py`).

The development shallowly embeds the pure/algorithmic core of the plugin:

* `Frame._parse`   → `VGT.parseFrame`   (frame decoding, incl. error paths)
* `Frame._set_data`→ `VGT.setData`      (frame encoding)
* `WebSocketServer.serve_forever` loop body → `VGT.loopIter` / `VGT.serveFinish`
* `WebSocketServer._send_text` / `_update_from_vim` → `VGT.sendTextJson` etc.
* `WebSocketServer._get_accept` → `VGT.getAccept` (SHA-1 and base64 are
  modelled from their standard definitions, since the Python code calls the
  `hashlib` / `base64` standard library)
* `GhostNotify` → `VGT.ghostNotifySignal` / `VGT.ghostNotifyWait`

Python `bytearray` values are modelled as `List Nat` (each element < 256 on
the wire); Python's unbounded integers are `Nat`, so no implicit wrap-around
is introduced anywhere.  Python exceptions (`IndexError` from out-of-range
indexing, the `raise Exception(...)` calls) are modelled with `Except`.
-/

deriving instance DecidableEq for Except

namespace VGT

/-- Errors that `Frame._parse` can raise: `indexError` models a Python
`IndexError` from `data[i]` with `i` out of range, `badOpcode` models the
`raise Exception(self.opcode)` for an opcode that is neither TEXT nor CLOSE. -/
inductive ParseError where
  | indexError
  | badOpcode (opcode : Nat)
deriving Repr, DecidableEq

/-- Errors that `Frame._set_data` can raise: `missingMaskKey` models
`raise Exception("Missing mask key")`, `todo` models `raise Exception("TODO")`
(the unimplemented masked-encoding path). -/
inductive EncodeError where
  | missingMaskKey
  | todo
deriving Repr, DecidableEq

/-- `Frame.TEXT` -/
def OP_TEXT : Nat := 1

/-- `Frame.CLOSE` -/
def OP_CLOSE : Nat := 8

/-- The fields of a parsed `Frame` object (class `Frame`). -/
structure Frame where
  fin : Bool
  opcode : Nat
  mask : Bool
  mask_key : Nat
  payload_len : Nat
  payload : List Nat
  closed : Bool
deriving Repr, DecidableEq

/-- The big-endian accumulation loop of `Frame._parse`:
`for i in range(n): acc = (acc << 8) | data[i + start]`.
Reading past the end of `data` is a Python `IndexError`. -/
def readBE (data : List Nat) : Nat → Nat → Nat → Except ParseError Nat
  | _, 0, acc => .ok acc
  | start, n + 1, acc =>
    match data.get? start with
    | some b => readBE data (start + 1) n ((acc <<< 8) ||| b)
    | none => .error .indexError

/-- The unmasking loop of `Frame._parse`:
`for i in range(payload_len): unmasked.append(payload[i] ^ ((mask_key >> ((i%4)*8)) & 0xff))`.
The argument `n` is the number of iterations still to run and `i` the current
index; the top-level call is `unmask payload key payload_len 0`. -/
def unmask (payload : List Nat) (key : Nat) : Nat → Nat → Except ParseError (List Nat)
  | 0, _ => .ok []
  | n + 1, i =>
    match payload.get? i with
    | some b =>
      match unmask payload key n (i + 1) with
      | .ok rest => .ok ((b ^^^ ((key >>> ((i % 4) * 8)) &&& 0xff)) :: rest)
      | .error e => .error e
    | none => .error .indexError

/-- The extended-length step of `Frame._parse`, given `pl7 = data[1] & 0x7f`.
Returns the resulting `payload_len` together with `next_byte`:

* `pl7 == 126`: the code resets `payload_len = 0` and folds the next two
  bytes big-endian onto it (`next_byte` becomes 4);
* `pl7 == 127`: the code folds the next eight bytes big-endian onto the
  *unreset* value — it has no `payload_len = 0` in this branch, so the
  accumulator starts at 127 (`next_byte` becomes 10);
* otherwise `payload_len` is `pl7` itself (`next_byte` stays 2). -/
def parseLen (data : List Nat) (pl7 : Nat) : Except ParseError (Nat × Nat) :=
  if pl7 = 126 then
    match readBE data 2 2 0 with
    | .ok l => .ok (l, 4)
    | .error e => .error e
  else if pl7 = 127 then
    match readBE data 2 8 pl7 with
    | .ok l => .ok (l, 10)
    | .error e => .error e
  else
    .ok (pl7, 2)

/-- The mask-key step of `Frame._parse`: if the mask flag is set, four
further bytes are assembled little-endian
(`mask_key |= data[i + next_byte] << (8 * i)`) and `next_byte` advances by
4; otherwise `mask_key` keeps its `0x0` default from `Frame.__init__`. -/
def parseKey (data : List Nat) (mask : Bool) (nxt1 : Nat) : Except ParseError (Nat × Nat) :=
  if mask then
    match data.get? nxt1, data.get? (nxt1 + 1), data.get? (nxt1 + 2), data.get? (nxt1 + 3) with
    | some k0, some k1, some k2, some k3 =>
      .ok (k0 ||| (k1 <<< 8) ||| (k2 <<< 16) ||| (k3 <<< 24), nxt1 + 4)
    | _, _, _, _ => .error .indexError
  else
    .ok (0x0, nxt1)

/-- The payload step of `Frame._parse`: the bytes from `next_byte` on are
the payload; a TEXT frame is unmasked by the `unmask` loop (XOR with
`mask_key` byte `i mod 4`), a CLOSE frame keeps its raw payload and sets
`closed`, and any other opcode raises `Exception(self.opcode)`. -/
def parseBody (data : List Nat) (fin : Bool) (opcode : Nat) (mask : Bool)
    (mask_key payload_len nxt2 : Nat) : Except ParseError Frame :=
  let payload := data.drop nxt2
  if opcode = OP_TEXT then
    match unmask payload mask_key payload_len 0 with
    | .ok unmasked => .ok ⟨fin, opcode, mask, mask_key, payload_len, unmasked, false⟩
    | .error e => .error e
  else if opcode = OP_CLOSE then
    .ok ⟨fin, opcode, mask, mask_key, payload_len, payload, true⟩
  else
    .error (.badOpcode opcode)

/-- `Frame._parse` (the decoder): byte 0 carries the fin flag
(`data[0] & 0x80`) and opcode (`data[0] & 0x0f`), byte 1 the mask flag
(`data[1] & 0x80`) and the 7-bit length (`data[1] & 0x7f`); then the
extended-length, mask-key and payload steps run in order. -/
def parseFrame (data : List Nat) : Except ParseError Frame :=
  match data.get? 0, data.get? 1 with
  | some b0, some b1 =>
    match parseLen data (b1 &&& 0x7f) with
    | .error e => .error e
    | .ok (payload_len, nxt1) =>
      match parseKey data (b1 &&& 0x80 != 0) nxt1 with
      | .error e => .error e
      | .ok (mask_key, nxt2) =>
        parseBody data (b0 &&& 0x80 != 0) (b0 &&& 0x0f) (b1 &&& 0x80 != 0)
          mask_key payload_len nxt2
  | _, _ => .error .indexError

/-- Number of extended-length bytes a 7-bit length field announces. -/
def extLenOf (pl7 : Nat) : Nat :=
  if pl7 = 126 then 2 else if pl7 = 127 then 8 else 0

/-- Number of header bytes (before the payload) that `Frame._parse` consumes
for a frame whose second byte is `b1`: the two leading bytes, the
extended-length bytes, and the 4-byte mask key when the mask bit is set. -/
def headerLen (b1 : Nat) : Nat :=
  2 + extLenOf (b1 &&& 0x7f) + (if b1 &&& 0x80 != 0 then 4 else 0)

/-- The `payload_len` value `Frame._parse` computes for `data` (0 if the
length step fails), as a total function. -/
def declaredLen (data : List Nat) (b1 : Nat) : Nat :=
  match parseLen data (b1 &&& 0x7f) with
  | .ok (l, _) => l
  | .error _ => 0

/-- `Frame._set_data` (the encoder).  `fin` and `mask` are the Python ints
(a Python `bool` coerces with `True & 0x1 == 1`); `payload_len` is always
`len(self.payload)` because `Frame.__init__` recomputes it.  The encoder
writes the fin/opcode byte, then the mask-bit/length byte(s) — 7-bit form,
or 126/127 marker followed by 2/8 big-endian bytes
(`for i in reversed(range(k)): append((payload_len >> (i*8)) & 0xff)`) —
and then raises if `mask` is truthy (`"Missing mask key"` when `mask_key` is
`None`, `"TODO"` otherwise), else appends the payload. -/
def setData (fin opcode mask : Nat) (mask_key : Option Nat) (payload : List Nat) :
    Except EncodeError (List Nat) :=
  let payload_len := payload.length
  let b0 := ((fin &&& 0x1) <<< 7) ||| (opcode &&& 0xf)
  let lenBytes : List Nat :=
    if 126 ≤ payload_len then
      if payload_len < (1 <<< 16) then
        (((mask &&& 0x1) <<< 7) ||| 0x7e) ::
          ((List.range 2).reverse.map fun i => (payload_len >>> (i * 8)) &&& 0xff)
      else
        (((mask &&& 0x1) <<< 7) ||| 0x7f) ::
          ((List.range 8).reverse.map fun i => (payload_len >>> (i * 8)) &&& 0xff)
    else
      [((mask &&& 0x1) <<< 7) ||| (payload_len &&& 0x7f)]
  if mask != 0 then
    match mask_key with
    | none => .error .missingMaskKey
    | some _ => .error .todo
  else
    .ok (b0 :: lenBytes ++ payload)

/-- The bytes of `Frame(opcode=Frame.CLOSE).data` (defaults: `fin=1`,
`mask=0`, `mask_key=0x0`, empty payload), sent by `serve_forever` on its
normal termination path. -/
def closeFrameData : List Nat :=
  match setData 1 OP_CLOSE 0 (some 0x0) [] with
  | .ok bs => bs
  | .error _ => []

/-!
## The worker loop (`WebSocketServer.serve_forever`), `_send_text`,
`_update_from_vim` and `GhostNotify`

A `WebSocketServer` thread's mutable state that the claims are about is its
`valid` flag and whether `self._conn` is still set (not `None`).  The side
effects each loop iteration performs (Vim commands under the lock, socket
sends/closes, event signalling) are recorded as a list of `Action`s.
-/

/-- A JSON value, used for the structured content of `_send_text`'s payload
(`json.dumps(data)` is the Python standard library and serializes exactly
this structure). -/
inductive JsonVal where
  | str (s : String)
  | num (n : Nat)
  | arr (elems : List JsonVal)
  | obj (fields : List (String × JsonVal))

/-- Thread-local `WebSocketServer` state: `valid` is `self.valid`, `connSet`
is `self._conn is not None`. -/
structure Worker where
  valid : Bool
  connSet : Bool
deriving Repr, DecidableEq

/-- One observable side effect of a `serve_forever` loop iteration. -/
inductive Action where
  /-- `vim.command('echo "..."')` under the Vim lock. -/
  | vimEcho (msg : String)
  /-- `self._conn.close()`. -/
  | connClose
  /-- `self._conn.sendall(bytes)` of raw frame bytes. -/
  | connSendAll (bytes : List Nat)
  /-- `_update_to_vim(frame.payload.decode('utf-8'))`: the received TEXT
  payload is pushed into the Vim buffer. -/
  | vimSetText (payloadBytes : List Nat)
  /-- `self._conn.sendall(frame.data)` in `_send_text`, for the frame
  `Frame(fin=1, opcode=Frame.TEXT, mask=0, payload=json.dumps(data))`;
  recorded with the frame header fields and the structured JSON payload. -/
  | sendJsonFrame (fin opcode mask : Nat) (payload : JsonVal)
  /-- `self._from_thread.set()`. -/
  | fromThreadSet

/-- Outcome of one iteration of the `while not self._done.is_set()` loop:
continue looping, `break`, or an exception propagating out of the loop
(e.g. from `Frame(data=...)`), which in Python skips the post-loop close
logic entirely. -/
inductive IterResult where
  | continueLoop (w : Worker)
  | breakLoop (w : Worker)
  | raised (w : Worker) (e : ParseError)
deriving Repr

/-- The worker state carried by an `IterResult`. -/
def IterResult.worker : IterResult → Worker
  | .continueLoop w => w
  | .breakLoop w => w
  | .raised w _ => w

/-- The message echoed when a CLOSE frame is received. -/
def closeEchoMsg : String :=
  "GhostText closed the connection, try re-loading the webpage if this was unexpected"

/-- The JSON object built by `_send_text` from the document text:
`{'text': text, 'selections': [{'start': len(text), 'end': len(text)}],
'title': 'ghosttext-vim', 'url': '', 'syntax': ''}`. -/
def sendTextJson (text : String) : JsonVal :=
  .obj [("text", .str text),
        ("selections", .arr [.obj [("start", .num text.length), ("end", .num text.length)]]),
        ("title", .str "ghosttext-vim"),
        ("url", .str ""),
        ("syntax", .str "")]

/-- `_update_from_vim`: read the buffer lines under the Vim lock, join them
with newlines, and `_send_text` the result as one TEXT frame; afterwards the
caller (`serve_forever`) sets `self._from_thread`. -/
def updateFromVimActions (lines : List String) : List Action :=
  let text := String.intercalate "\n" lines
  [.sendJsonFrame 1 OP_TEXT 0 (sendTextJson text), .fromThreadSet]

/-- The body of the `while not self._done.is_set()` loop of `serve_forever`.

`first` is `loop == 1`; `recv` is what `self._recv(...)` returned (`none`
for the `None` result of a timeout / would-block); `toThread` is whether
`self._to_thread.is_set()`; `lines` is the current Vim buffer contents.

* On the first iteration a `None` receive hits the 3-second-timeout branch
  and `break`s (the socket is closed by the post-loop code).
* On a first-iteration successful receive, `self.valid = True`.
* Received bytes are parsed with `Frame(data=bytearray(recv))`; a frame with
  `closed` echoes a message, closes and clears `self._conn`, and `break`s —
  any pending `to_thread` signal is *not* serviced on this path.
* A non-close (TEXT) frame's payload is pushed to Vim.
* Then, if `to_thread` is set, it is cleared, `_update_from_vim()` runs and
  `from_thread` is set.
* Finally `if not self.valid: break`. -/
def loopIter (w : Worker) (first : Bool) (recv : Option (List Nat)) (toThread : Bool)
    (lines : List String) : List Action × IterResult :=
  match first, recv with
  | true, none => ([], .breakLoop w)
  | _, _ =>
    let w1 := if first then { w with valid := true } else w
    let recvStep : List Action × Option IterResult :=
      match recv with
      | none => ([], none)
      | some bytes =>
        match parseFrame bytes with
        | .error e => ([], some (.raised w1 e))
        | .ok frame =>
          if frame.closed then
            ([.vimEcho closeEchoMsg, .connClose],
             some (.breakLoop { w1 with connSet := false }))
          else
            ([.vimSetText frame.payload], none)
    match recvStep with
    | (acts, some r) => (acts, r)
    | (acts, none) =>
      let pushActs := if toThread then updateFromVimActions lines else []
      let acts := acts ++ pushActs
      if w1.valid then (acts, .continueLoop w1) else (acts, .breakLoop w1)

/-- The code after the loop in `serve_forever`:
`if self._conn is not None: self._conn.sendall(Frame(opcode=Frame.CLOSE).data);
self._conn.close()`. -/
def serveFinish (w : Worker) : List Action :=
  if w.connSet then [.connSendAll closeFrameData, .connClose] else []

/-- Whether an action sends the bytes of a CLOSE frame on the socket. -/
def isCloseSend : Action → Bool
  | .connSendAll bytes => bytes == closeFrameData
  | _ => false

/-- Number of CLOSE frames sent in a list of actions. -/
def closeSendCount (acts : List Action) : Nat :=
  (acts.filter isCloseSend).length

/-- Whether an action sends a JSON-carrying (TEXT) frame (`_send_text`). -/
def isJsonSend : Action → Bool
  | .sendJsonFrame _ _ _ _ => true
  | _ => false

/-- A worker step in the registry: thread `i` runs `step` on its own state
only (each `serve_forever` thread touches `self` and nothing else). -/
def stepWorkerAt (workers : List Worker) (i : Nat) (step : Worker → Worker) : List Worker :=
  match workers.get? i with
  | some w => workers.set i (step w)
  | none => workers

/-- One registry entry of `HTTPSERVER.websocks`: the worker's `valid` flag
and the states of its `to_thread` / `from_thread` events. -/
structure SockEntry where
  valid : Bool
  toThread : Bool
  fromThread : Bool
deriving Repr, DecidableEq

/-- The signalling pass of `GhostNotify`: for every entry with
`ws['sock'].valid`, the counter `found` is incremented and — since
`if found:` is then always true — `ws['to_thread'].set()` runs; entries with
`valid` false are untouched. -/
def ghostNotifySignal (socks : List SockEntry) : List SockEntry :=
  socks.map fun ws => if ws.valid then { ws with toThread := true } else ws

/-- The `wait` list of `GhostNotify`: exactly the entries appended during the
signalling pass, i.e. those with `valid` true. -/
def ghostNotifyWait (socks : List SockEntry) : List SockEntry :=
  socks.filter fun ws => ws.valid

/-- The final value of `found` in `GhostNotify`. -/
def ghostNotifyFound (socks : List SockEntry) : Nat :=
  (ghostNotifyWait socks).length

/-!
## The handshake accept value (`WebSocketServer._get_accept`)

The Python code computes
`base64.b64encode(hashlib.sha1(key + "258EAFA5-E914-47DA-95CA-C5AB0DC85B11").digest())`.
`hashlib.sha1` and `base64.b64encode` are Python standard-library
primitives; they are modelled here by the standard SHA-1 (RFC 3174) and
base64 (RFC 4648) algorithms, which is what those libraries implement.
-/

/-- Truncate to a 32-bit word. -/
def w32 (x : Nat) : Nat := x &&& 0xffffffff

/-- 32-bit left rotation (operand assumed < 2^32). -/
def rotl32 (n x : Nat) : Nat := ((x <<< n) ||| (x >>> (32 - n))) &&& 0xffffffff

/-- Big-endian bytes (most significant first) of the low `n` bytes of `v`. -/
def toBE (n v : Nat) : List Nat :=
  (List.range n).reverse.map fun i => (v >>> (i * 8)) &&& 0xff

/-- Fold a byte list big-endian onto an accumulator. -/
def beVal (acc : Nat) (bs : List Nat) : Nat :=
  bs.foldl (fun a b => (a <<< 8) ||| b) acc

/-- SHA-1 padding: append `0x80`, zero bytes to 56 mod 64, then the 64-bit
big-endian bit length. -/
def sha1pad (msg : List Nat) : List Nat :=
  let z := (119 - msg.length % 64) % 64
  msg ++ (0x80 :: List.replicate z 0) ++ toBE 8 (8 * msg.length)

/-- SHA-1 round function `f_t`. -/
def sha1f (t b c d : Nat) : Nat :=
  if t < 20 then (b &&& c) ||| ((b ^^^ 0xffffffff) &&& d)
  else if t < 40 then b ^^^ c ^^^ d
  else if t < 60 then (b &&& c) ||| (b &&& d) ||| (c &&& d)
  else b ^^^ c ^^^ d

/-- SHA-1 round constant `K_t`. -/
def sha1k (t : Nat) : Nat :=
  if t < 20 then 0x5A827999
  else if t < 40 then 0x6ED9EBA1
  else if t < 60 then 0x8F1BBCDC
  else 0xCA62C1D6

/-- Extend the 16 message words of a block to 80 schedule words
(`n` words still to append). -/
def sha1extend (ws : List Nat) : Nat → List Nat
  | 0 => ws
  | n + 1 =>
    let ws := sha1extend ws n
    let len := ws.length
    ws ++ [rotl32 1 ((ws.getD (len - 3) 0) ^^^ (ws.getD (len - 8) 0) ^^^
                     (ws.getD (len - 14) 0) ^^^ (ws.getD (len - 16) 0))]

/-- The 80 schedule words of one 64-byte block. -/
def sha1schedule (block : List Nat) : List Nat :=
  sha1extend ((List.range 16).map fun i => beVal 0 ((block.drop (4 * i)).take 4)) 64

/-- One SHA-1 compression round. -/
def sha1round (ws : List Nat) (st : Nat × Nat × Nat × Nat × Nat) (t : Nat) :
    Nat × Nat × Nat × Nat × Nat :=
  let (a, b, c, d, e) := st
  (w32 (rotl32 5 a + sha1f t b c d + e + ws.getD t 0 + sha1k t), a, rotl32 30 b, c, d)

/-- Compress one 64-byte block into the running hash state. -/
def sha1block (h : Nat × Nat × Nat × Nat × Nat) (block : List Nat) :
    Nat × Nat × Nat × Nat × Nat :=
  let (h0, h1, h2, h3, h4) := h
  let (a, b, c, d, e) := (List.range 80).foldl (sha1round (sha1schedule block)) h
  (w32 (h0 + a), w32 (h1 + b), w32 (h2 + c), w32 (h3 + d), w32 (h4 + e))

/-- Process a padded message, 64 bytes at a time (`fuel` bounds the number of
remaining bytes so the recursion is structural). -/
def sha1blocks (h : Nat × Nat × Nat × Nat × Nat) : Nat → List Nat → Nat × Nat × Nat × Nat × Nat
  | _, [] => h
  | 0, _ => h
  | fuel + 1, data => sha1blocks (sha1block h (data.take 64)) fuel (data.drop 64)

/-- The 20-byte SHA-1 digest of a byte string. -/
def sha1 (msg : List Nat) : List Nat :=
  let padded := sha1pad msg
  let (h0, h1, h2, h3, h4) :=
    sha1blocks (0x67452301, 0xEFCDAB89, 0x98BADCFE, 0x10325476, 0xC3D2E1F0)
      padded.length padded
  toBE 4 h0 ++ toBE 4 h1 ++ toBE 4 h2 ++ toBE 4 h3 ++ toBE 4 h4

/-- The base64 alphabet. -/
def b64chars : List Char :=
  "ABCDEFGHIJKLMNOPQRSTUVWXYZabcdefghijklmnopqrstuvwxyz0123456789+/".data

/-- Look up a 6-bit value in the base64 alphabet. -/
def b64char (v : Nat) : Char := b64chars.getD v 'A'

/-- Standard base64 encoding of a byte list (with `=` padding). -/
def b64encode : List Nat → List Char
  | b0 :: b1 :: b2 :: rest =>
    b64char (b0 >>> 2) :: b64char (((b0 &&& 0x3) <<< 4) ||| (b1 >>> 4)) ::
    b64char (((b1 &&& 0xf) <<< 2) ||| (b2 >>> 6)) :: b64char (b2 &&& 0x3f) ::
    b64encode rest
  | [b0, b1] =>
    [b64char (b0 >>> 2), b64char (((b0 &&& 0x3) <<< 4) ||| (b1 >>> 4)),
     b64char ((b1 &&& 0xf) <<< 2), '=']
  | [b0] =>
    [b64char (b0 >>> 2), b64char ((b0 &&& 0x3) <<< 4), '=', '=']
  | [] => []

/-- The bytes of an ASCII string (Python 2 `str` values are byte strings). -/
def strBytes (s : String) : List Nat := s.data.map Char.toNat

/-- The fixed WebSocket handshake GUID appended to the key. -/
def wsGuid : String := "258EAFA5-E914-47DA-95CA-C5AB0DC85B11"

/-- `WebSocketServer._get_accept` on byte strings:
`base64.b64encode(hashlib.sha1(key + GUID).digest())`. -/
def getAccept (key : List Nat) : List Char :=
  b64encode (sha1 (key ++ strBytes wsGuid))

/-- `_get_accept` as a `String → String` function. -/
def getAcceptStr (key : String) : String :=
  String.mk (getAccept (strBytes key))

/-!
## Helper lemmas
-/

theorem beVal_cons (acc b : Nat) (bs : List Nat) :
    beVal acc (b :: bs) = beVal ((acc <<< 8) ||| b) bs := rfl

theorem beVal_nil (acc : Nat) : beVal acc [] = acc := rfl

/-- `readBE` fails with an `IndexError` when the bytes to fold run past the
end of `data`. -/
theorem readBE_error (data : List Nat) :
    ∀ (n start acc : Nat), start ≤ data.length → data.length < start + n →
      readBE data start n acc = .error .indexError := by
  intro n
  induction n with
  | zero => intro start acc h1 h2; omega
  | succ n ih =>
    intro start acc h1 h2
    rw [readBE]
    cases hget : data.get? start with
    | none => rfl
    | some b =>
      have hlt : start < data.length := List.get?_eq_some.mp hget |>.1
      exact ih (start + 1) _ (by omega) (by omega)

/-- `readBE` succeeds when all bytes are present, folding them big-endian. -/
theorem readBE_ok (data : List Nat) :
    ∀ (n start acc : Nat), start + n ≤ data.length →
      readBE data start n acc = .ok (beVal acc ((data.drop start).take n)) := by
  intro n
  induction n with
  | zero => intro start acc _; simp [readBE, beVal_nil]
  | succ n ih =>
    intro start acc h
    have hlt : start < data.length := by omega
    have hget : data.get? start = some data[start] := by
      rw [List.get?_eq_getElem?, List.getElem?_eq_getElem hlt]
    rw [readBE, hget]
    show readBE data (start + 1) n ((acc <<< 8) ||| data[start]) = _
    rw [ih (start + 1) ((acc <<< 8) ||| data[start]) (by omega),
      List.drop_eq_getElem_cons hlt]
    rfl

/-- A `readBE` failure is always an `IndexError`. -/
theorem readBE_error_inv (data : List Nat) :
    ∀ (n start acc : Nat) (e : ParseError), readBE data start n acc = .error e →
      e = .indexError := by
  intro n
  induction n with
  | zero => intro start acc e h; simp [readBE] at h
  | succ n ih =>
    intro start acc e h
    rw [readBE] at h
    cases hget : data.get? start with
    | none => rw [hget] at h; exact (Except.error.inj h).symm
    | some b =>
      rw [hget] at h
      exact ih (start + 1) ((acc <<< 8) ||| b) e h

/-- `unmask` fails with an `IndexError` when the declared count runs past
the end of the payload. -/
theorem unmask_error (p : List Nat) (key : Nat) :
    ∀ (n i : Nat), i ≤ p.length → p.length < i + n →
      unmask p key n i = .error .indexError := by
  intro n
  induction n with
  | zero => intro i h1 h2; omega
  | succ n ih =>
    intro i h1 h2
    rw [unmask]
    cases hget : p.get? i with
    | none => rfl
    | some b =>
      have hlt : i < p.length := List.get?_eq_some.mp hget |>.1
      rw [ih (i + 1) (by omega) (by omega)]

/-- An `unmask` failure is always an `IndexError`. -/
theorem unmask_error_inv (p : List Nat) (key : Nat) :
    ∀ (n i : Nat) (e : ParseError), unmask p key n i = .error e → e = .indexError := by
  intro n
  induction n with
  | zero => intro i e h; simp [unmask] at h
  | succ n ih =>
    intro i e h
    rw [unmask] at h
    cases hget : p.get? i with
    | none => rw [hget] at h; exact (Except.error.inj h).symm
    | some b =>
      rw [hget] at h
      cases hrec : unmask p key n (i + 1) with
      | ok rest => rw [hrec] at h; simp at h
      | error e2 => rw [hrec] at h; cases h; exact ih _ _ hrec

/-- Characterization of a successful `unmask` run: the result has exactly
the declared length and each byte is the corresponding payload byte XORed
with mask-key byte `index mod 4`. -/
theorem unmask_ok_char (p : List Nat) (key : Nat) :
    ∀ (n i : Nat) (l : List Nat), unmask p key n i = .ok l →
      l.length = n ∧ ∀ j, j < n →
        l.get? j = some ((p.getD (i + j) 0) ^^^ ((key >>> (((i + j) % 4) * 8)) &&& 0xff)) := by
  intro n
  induction n with
  | zero =>
    intro i l h
    rw [unmask] at h
    cases h
    exact ⟨rfl, by omega⟩
  | succ n ih =>
    intro i l h
    rw [unmask] at h
    cases hget : p.get? i with
    | none => rw [hget] at h; simp at h
    | some b =>
      rw [hget] at h
      cases hrec : unmask p key n (i + 1) with
      | error e => rw [hrec] at h; simp at h
      | ok rest =>
        rw [hrec] at h
        cases h
        obtain ⟨hlen, hchar⟩ := ih (i + 1) rest hrec
        refine ⟨by simp [hlen], ?_⟩
        intro j hj
        cases j with
        | zero =>
          have hD : p.getD (i + 0) 0 = b := by
            simp [List.getD_eq_getElem?_getD, ← List.get?_eq_getElem?, hget]
          rw [List.get?_cons_zero, hD]
          simp
        | succ j =>
          rw [List.get?_cons_succ, show i + (j + 1) = i + 1 + j by omega]
          exact hchar j (by omega)

/-- A successful `unmask` with the default zero mask key returns the first
`n` payload bytes unchanged. -/
theorem unmask_zero_inv (p : List Nat) :
    ∀ (n i : Nat) (l : List Nat), unmask p 0 n i = .ok l → l = (p.drop i).take n := by
  intro n
  induction n with
  | zero => intro i l h; rw [unmask] at h; cases h; simp
  | succ n ih =>
    intro i l h
    rw [unmask] at h
    cases hget : p.get? i with
    | none => rw [hget] at h; simp at h
    | some b =>
      rw [hget] at h
      cases hrec : unmask p 0 n (i + 1) with
      | error e => rw [hrec] at h; simp at h
      | ok rest =>
        rw [hrec] at h
        cases h
        have hlt : i < p.length := List.get?_eq_some.mp hget |>.1
        have hpi : p[i] = b := by
          have h2 := hget
          rw [List.get?_eq_getElem?, List.getElem?_eq_getElem hlt] at h2
          exact Option.some.inj h2
        rw [List.drop_eq_getElem_cons hlt, List.take_succ_cons, ← ih (i + 1) rest hrec, hpi]
        simp only [Nat.zero_shiftRight, Nat.zero_and, Nat.xor_zero]

/-- `unmask` succeeds (returning the bytes unchanged) with the zero mask key
when enough payload bytes are present. -/
theorem unmask_zero_ok (p : List Nat) :
    ∀ (n i : Nat), i + n ≤ p.length → unmask p 0 n i = .ok ((p.drop i).take n) := by
  intro n
  induction n with
  | zero => intro i h; simp [unmask]
  | succ n ih =>
    intro i h
    have hlt : i < p.length := by omega
    have hget : p.get? i = some p[i] := by
      rw [List.get?_eq_getElem?, List.getElem?_eq_getElem hlt]
    rw [unmask, hget, ih (i + 1) (by omega), List.drop_eq_getElem_cons hlt,
      List.take_succ_cons]
    simp only [Nat.zero_shiftRight, Nat.zero_and, Nat.xor_zero]

/-- Folding a small value with a shifted one by `|||` is addition. -/
theorem lor_shiftLeft_eq (b a n : Nat) (hb : b < 2 ^ n) :
    b ||| (a <<< n) = 2 ^ n * a + b := by
  rw [Nat.lor_comm, Nat.shiftLeft_eq, Nat.mul_comm]
  exact (Nat.mul_add_lt_is_or hb a).symm

/-- The value of the little-endian mask-key assembly of `Frame._parse`. -/
theorem maskKey_eq (k0 k1 k2 k3 : Nat) (h0 : k0 < 256) (h1 : k1 < 256) (h2 : k2 < 256)
    (h3 : k3 < 256) :
    k0 ||| (k1 <<< 8) ||| (k2 <<< 16) ||| (k3 <<< 24) =
      k0 + k1 * 256 + k2 * 65536 + k3 * 16777216 := by
  have e8 : (2 : Nat) ^ 8 = 256 := by norm_num
  have e16 : (2 : Nat) ^ 16 = 65536 := by norm_num
  have e24 : (2 : Nat) ^ 24 = 16777216 := by norm_num
  rw [lor_shiftLeft_eq k0 k1 8 (by rw [e8]; omega),
    lor_shiftLeft_eq _ k2 16 (by rw [e16, e8]; omega),
    lor_shiftLeft_eq _ k3 24 (by rw [e24, e16, e8]; omega), e8, e16, e24]
  ring

/-- Byte `m` (little-endian) of the assembled mask key is the `m`-th wire
mask byte. -/
theorem maskKey_byte (k0 k1 k2 k3 : Nat) (h0 : k0 < 256) (h1 : k1 < 256) (h2 : k2 < 256)
    (h3 : k3 < 256) (m : Nat) (hm : m < 4) :
    ((k0 ||| (k1 <<< 8) ||| (k2 <<< 16) ||| (k3 <<< 24)) >>> (m * 8)) &&& 0xff =
      [k0, k1, k2, k3].getD m 0 := by
  rw [maskKey_eq k0 k1 k2 k3 h0 h1 h2 h3, Nat.shiftRight_eq_div_pow,
    show (0xff : Nat) = 2 ^ 8 - 1 by norm_num, Nat.and_pow_two_sub_one_eq_mod]
  interval_cases m <;> simp <;> omega

/-- A successful length step always advances `next_byte` to
`2 + extLenOf pl7`. -/
theorem parseLen_ok_nxt (data : List Nat) (pl7 l nxt : Nat)
    (h : parseLen data pl7 = .ok (l, nxt)) : nxt = 2 + extLenOf pl7 := by
  rw [parseLen] at h
  rw [extLenOf]
  by_cases h126 : pl7 = 126
  · rw [if_pos h126] at h
    rw [if_pos h126]
    cases hbe : readBE data 2 2 0 with
    | ok v => rw [hbe] at h; cases h; rfl
    | error e => rw [hbe] at h; simp at h
  · rw [if_neg h126] at h
    rw [if_neg h126]
    by_cases h127 : pl7 = 127
    · rw [if_pos h127] at h
      rw [if_pos h127]
      cases hbe : readBE data 2 8 pl7 with
      | ok v => rw [hbe] at h; cases h; rfl
      | error e => rw [hbe] at h; simp at h
    · rw [if_neg h127] at h
      rw [if_neg h127]
      cases h; rfl

/-- A length-step failure is always an `IndexError`. -/
theorem parseLen_error_inv (data : List Nat) (pl7 : Nat) (e : ParseError)
    (h : parseLen data pl7 = .error e) : e = .indexError := by
  rw [parseLen] at h
  by_cases h126 : pl7 = 126
  · rw [if_pos h126] at h
    cases hbe : readBE data 2 2 0 with
    | ok v => rw [hbe] at h; simp at h
    | error e2 => rw [hbe] at h; cases h; exact readBE_error_inv data 2 2 0 e hbe
  · rw [if_neg h126] at h
    by_cases h127 : pl7 = 127
    · rw [if_pos h127] at h
      cases hbe : readBE data 2 8 pl7 with
      | ok v => rw [hbe] at h; simp at h
      | error e2 => rw [hbe] at h; cases h; exact readBE_error_inv data 8 2 pl7 e hbe
    · rw [if_neg h127] at h; simp at h

/-- The length step succeeds when the extended-length bytes are present. -/
theorem parseLen_ok_of_le (data : List Nat) (pl7 : Nat)
    (h : 2 + extLenOf pl7 ≤ data.length) :
    ∃ l, parseLen data pl7 = .ok (l, 2 + extLenOf pl7) := by
  rw [parseLen]
  by_cases h126 : pl7 = 126
  · have he : extLenOf pl7 = 2 := by rw [extLenOf, if_pos h126]
    rw [he] at h
    rw [if_pos h126, readBE_ok data 2 2 0 h, he]
    exact ⟨_, rfl⟩
  · by_cases h127 : pl7 = 127
    · have he : extLenOf pl7 = 8 := by rw [extLenOf, if_neg h126, if_pos h127]
      rw [he] at h
      rw [if_neg h126, if_pos h127, readBE_ok data 8 2 pl7 h, he]
      exact ⟨_, rfl⟩
    · have he : extLenOf pl7 = 0 := by rw [extLenOf, if_neg h126, if_neg h127]
      rw [if_neg h126, if_neg h127, he]
      exact ⟨_, rfl⟩

/-- The length step fails when the declared extended-length bytes run past
the end of `data`. -/
theorem parseLen_error_of_lt (data : List Nat) (pl7 : Nat)
    (h2 : 2 ≤ data.length) (hlt : data.length < 2 + extLenOf pl7) :
    parseLen data pl7 = .error .indexError := by
  rw [parseLen]
  by_cases h126 : pl7 = 126
  · have he : extLenOf pl7 = 2 := by rw [extLenOf, if_pos h126]
    rw [he] at hlt
    rw [if_pos h126, readBE_error data 2 2 0 h2 hlt]
  · by_cases h127 : pl7 = 127
    · have he : extLenOf pl7 = 8 := by rw [extLenOf, if_neg h126, if_pos h127]
      rw [he] at hlt
      rw [if_neg h126, if_pos h127, readBE_error data 8 2 pl7 h2 hlt]
    · have he : extLenOf pl7 = 0 := by rw [extLenOf, if_neg h126, if_neg h127]
      omega

/-- With the mask flag clear, the key step returns the `0x0` default and
does not advance `next_byte`. -/
theorem parseKey_false (data : List Nat) (nxt1 : Nat) :
    parseKey data false nxt1 = .ok (0x0, nxt1) := rfl

/-- Characterization of a successful key step with the mask flag set. -/
theorem parseKey_true_char (data : List Nat) (nxt1 key nxt2 : Nat)
    (h : parseKey data true nxt1 = .ok (key, nxt2)) :
    nxt2 = nxt1 + 4 ∧ ∃ k0 k1 k2 k3,
      data.get? nxt1 = some k0 ∧ data.get? (nxt1 + 1) = some k1 ∧
      data.get? (nxt1 + 2) = some k2 ∧ data.get? (nxt1 + 3) = some k3 ∧
      key = k0 ||| (k1 <<< 8) ||| (k2 <<< 16) ||| (k3 <<< 24) := by
  rw [parseKey, if_pos rfl] at h
  cases hg0 : data.get? nxt1 with
  | none => rw [hg0] at h; simp at h
  | some k0 =>
    cases hg1 : data.get? (nxt1 + 1) with
    | none => rw [hg0, hg1] at h; simp at h
    | some k1 =>
      cases hg2 : data.get? (nxt1 + 2) with
      | none => rw [hg0, hg1, hg2] at h; simp at h
      | some k2 =>
        cases hg3 : data.get? (nxt1 + 3) with
        | none => rw [hg0, hg1, hg2, hg3] at h; simp at h
        | some k3 =>
          rw [hg0, hg1, hg2, hg3] at h
          cases h
          exact ⟨rfl, k0, k1, k2, k3, rfl, rfl, rfl, rfl, rfl⟩

/-- The key step with the mask flag set fails when the four mask-key bytes
run past the end of `data`. -/
theorem parseKey_true_error (data : List Nat) (nxt1 : Nat)
    (h : data.length < nxt1 + 4) :
    parseKey data true nxt1 = .error .indexError := by
  have h3 : data.get? (nxt1 + 3) = none := by
    rw [List.get?_eq_getElem?]
    exact List.getElem?_eq_none (by omega)
  rw [parseKey, if_pos rfl]
  cases hg0 : data.get? nxt1 <;> cases hg1 : data.get? (nxt1 + 1) <;>
    cases hg2 : data.get? (nxt1 + 2) <;> rw [h3]

/-- The key step with the mask flag set succeeds when the four mask-key
bytes are present. -/
theorem parseKey_true_ok (data : List Nat) (nxt1 : Nat) (h : nxt1 + 4 ≤ data.length) :
    ∃ key, parseKey data true nxt1 = .ok (key, nxt1 + 4) := by
  have hg0 : data.get? nxt1 = some data[nxt1] := by
    rw [List.get?_eq_getElem?, List.getElem?_eq_getElem (by omega)]
  have hg1 : data.get? (nxt1 + 1) = some data[nxt1 + 1] := by
    rw [List.get?_eq_getElem?, List.getElem?_eq_getElem (by omega)]
  have hg2 : data.get? (nxt1 + 2) = some data[nxt1 + 2] := by
    rw [List.get?_eq_getElem?, List.getElem?_eq_getElem (by omega)]
  have hg3 : data.get? (nxt1 + 3) = some data[nxt1 + 3] := by
    rw [List.get?_eq_getElem?, List.getElem?_eq_getElem (by omega)]
  rw [parseKey, if_pos rfl, hg0, hg1, hg2, hg3]
  exact ⟨_, rfl⟩

/-- Characterization of a successful payload step. -/
theorem parseBody_ok_inv (data : List Nat) (fin : Bool) (opcode : Nat) (mask : Bool)
    (mask_key payload_len nxt2 : Nat) (f : Frame)
    (h : parseBody data fin opcode mask mask_key payload_len nxt2 = .ok f) :
    f.fin = fin ∧ f.opcode = opcode ∧ f.mask = mask ∧ f.mask_key = mask_key ∧
    f.payload_len = payload_len ∧
    ((opcode = OP_TEXT ∧ f.closed = false ∧
        unmask (data.drop nxt2) mask_key payload_len 0 = .ok f.payload) ∨
     (opcode ≠ OP_TEXT ∧ opcode = OP_CLOSE ∧ f.closed = true ∧
        f.payload = data.drop nxt2)) := by
  rw [parseBody] at h
  by_cases htext : opcode = OP_TEXT
  · rw [if_pos htext] at h
    cases hum : unmask (data.drop nxt2) mask_key payload_len 0 with
    | ok unm =>
      rw [hum] at h
      cases h
      exact ⟨rfl, rfl, rfl, rfl, rfl, .inl ⟨htext, rfl, rfl⟩⟩
    | error e => rw [hum] at h; simp at h
  · rw [if_neg htext] at h
    by_cases hclose : opcode = OP_CLOSE
    · rw [if_pos hclose] at h
      cases h
      exact ⟨rfl, rfl, rfl, rfl, rfl, .inr ⟨htext, hclose, rfl, rfl⟩⟩
    · rw [if_neg hclose] at h; simp at h

/-- A `badOpcode` failure of the payload step only happens for an opcode
that is neither TEXT nor CLOSE, and reports that opcode. -/
theorem parseBody_badOpcode_inv (data : List Nat) (fin : Bool) (opcode : Nat) (mask : Bool)
    (mask_key payload_len nxt2 : Nat) (op : Nat)
    (h : parseBody data fin opcode mask mask_key payload_len nxt2 = .error (.badOpcode op)) :
    op = opcode ∧ opcode ≠ OP_TEXT ∧ opcode ≠ OP_CLOSE := by
  rw [parseBody] at h
  by_cases htext : opcode = OP_TEXT
  · rw [if_pos htext] at h
    cases hum : unmask (data.drop nxt2) mask_key payload_len 0 with
    | ok unm => rw [hum] at h; simp at h
    | error e =>
      rw [hum] at h
      cases h
      have := unmask_error_inv (data.drop nxt2) mask_key payload_len 0 _ hum
      simp at this
  · rw [if_neg htext] at h
    by_cases hclose : opcode = OP_CLOSE
    · rw [if_pos hclose] at h; simp at h
    · rw [if_neg hclose] at h
      cases h
      exact ⟨rfl, htext, hclose⟩

/-- Inversion of a successful `parseFrame` run into its stages. -/
theorem parseFrame_ok_inv (data : List Nat) (f : Frame) (h : parseFrame data = .ok f) :
    ∃ b0 b1 payload_len nxt1 mask_key nxt2,
      data.get? 0 = some b0 ∧ data.get? 1 = some b1 ∧
      parseLen data (b1 &&& 0x7f) = .ok (payload_len, nxt1) ∧
      parseKey data (b1 &&& 0x80 != 0) nxt1 = .ok (mask_key, nxt2) ∧
      parseBody data (b0 &&& 0x80 != 0) (b0 &&& 0x0f) (b1 &&& 0x80 != 0)
        mask_key payload_len nxt2 = .ok f := by
  rw [parseFrame] at h
  split at h
  · rename_i b0 b1 hg0 hg1
    split at h
    · simp at h
    · rename_i payload_len nxt1 hlen
      split at h
      · simp at h
      · rename_i mask_key nxt2 hkey
        exact ⟨b0, b1, payload_len, nxt1, mask_key, nxt2, hg0, hg1, hlen, hkey, h⟩
  · simp at h

/-- Forward composition: with both header bytes present and the length and
key steps succeeding, `parseFrame` is the payload step. -/
theorem parseFrame_eq (data : List Nat) (b0 b1 : Nat)
    (hg0 : data.get? 0 = some b0) (hg1 : data.get? 1 = some b1)
    (payload_len nxt1 : Nat) (hlen : parseLen data (b1 &&& 0x7f) = .ok (payload_len, nxt1))
    (mask_key nxt2 : Nat) (hkey : parseKey data (b1 &&& 0x80 != 0) nxt1 = .ok (mask_key, nxt2)) :
    parseFrame data = parseBody data (b0 &&& 0x80 != 0) (b0 &&& 0x0f) (b1 &&& 0x80 != 0)
      mask_key payload_len nxt2 := by
  rw [parseFrame, hg0, hg1]
  dsimp only
  rw [hlen]
  dsimp only
  rw [hkey]

/-- Forward composition for a failing length step. -/
theorem parseFrame_eq_lenError (data : List Nat) (b0 b1 : Nat)
    (hg0 : data.get? 0 = some b0) (hg1 : data.get? 1 = some b1)
    (hlen : parseLen data (b1 &&& 0x7f) = .error .indexError) :
    parseFrame data = .error .indexError := by
  rw [parseFrame, hg0, hg1]
  dsimp only
  rw [hlen]

/-- Forward composition for a failing key step. -/
theorem parseFrame_eq_keyError (data : List Nat) (b0 b1 : Nat)
    (hg0 : data.get? 0 = some b0) (hg1 : data.get? 1 = some b1)
    (payload_len nxt1 : Nat) (hlen : parseLen data (b1 &&& 0x7f) = .ok (payload_len, nxt1))
    (hkey : parseKey data (b1 &&& 0x80 != 0) nxt1 = .error .indexError) :
    parseFrame data = .error .indexError := by
  rw [parseFrame, hg0, hg1]
  dsimp only
  rw [hlen]
  dsimp only
  rw [hkey]

/-- A `badOpcode` failure of `parseFrame` reports the parsed opcode
`data[0] & 0x0f`, and only for an opcode that is neither TEXT nor CLOSE. -/
theorem parseFrame_badOpcode_inv (data : List Nat) (op : Nat)
    (h : parseFrame data = .error (.badOpcode op)) :
    op ≠ OP_TEXT ∧ op ≠ OP_CLOSE ∧ ∃ b0, data.get? 0 = some b0 ∧ op = b0 &&& 0x0f := by
  rw [parseFrame] at h
  split at h
  · rename_i b0 b1 hg0 hg1
    split at h
    · rename_i e hlen
      cases h
      have := parseLen_error_inv data (b1 &&& 0x7f) _ hlen
      simp at this
    · rename_i payload_len nxt1 hlen
      split at h
      · rename_i e hkey
        cases h
        rw [parseKey] at hkey
        by_cases hm : (b1 &&& 0x80 != 0) = true
        · rw [if_pos hm] at hkey
          cases hg0' : data.get? nxt1 <;> cases hg1' : data.get? (nxt1 + 1) <;>
            cases hg2' : data.get? (nxt1 + 2) <;> cases hg3' : data.get? (nxt1 + 3) <;>
            rw [hg0', hg1', hg2', hg3'] at hkey <;> simp at hkey
        · rw [if_neg hm] at hkey
          simp at hkey
      · rename_i mask_key nxt2 hkey
        obtain ⟨hop, h1, h8⟩ := parseBody_badOpcode_inv data _ _ _ _ _ _ _ h
        exact ⟨hop ▸ h1, hop ▸ h8, b0, hg0, hop⟩
  · simp at h

/-- `getD` at an index known to be present. -/
theorem getD_eq_of_get? {l : List Nat} {i b : Nat} (h : l.get? i = some b) :
    l.getD i 0 = b := by
  rw [List.getD_eq_getElem?_getD, ← List.get?_eq_getElem?, h]
  rfl

/-- `getD` through `drop`. -/
theorem getD_drop (l : List Nat) (m j : Nat) : (l.drop m).getD j 0 = l.getD (m + j) 0 := by
  simp [List.getD_eq_getElem?_getD, List.getElem?_drop]

/-- Masking with a single higher power of two gives zero. -/
theorem and_two_pow_eq_zero {x n : Nat} (h : x < 2 ^ n) : x &&& 2 ^ n = 0 := by
  apply Nat.eq_of_testBit_eq
  intro i
  simp only [Nat.testBit_and, Nat.zero_testBit, Nat.testBit_two_pow]
  by_cases hi : n = i
  · subst hi
    simp [Nat.testBit_lt_two_pow h]
  · simp [hi]

/-- Big-endian folding of bytes is bounded. -/
theorem beVal_lt (bs : List Nat) : ∀ acc, (∀ b ∈ bs, b < 256) →
    beVal acc bs < (acc + 1) * 256 ^ bs.length := by
  induction bs with
  | nil => intro acc _; simp [beVal_nil]
  | cons b bs ih =>
    intro acc hb
    rw [beVal_cons]
    have hb' : b < 256 := hb b (by simp)
    have hrec := ih ((acc <<< 8) ||| b) (fun x hx => hb x (by simp [hx]))
    have heq : (acc <<< 8) ||| b = 256 * acc + b := by
      have h2 := lor_shiftLeft_eq b acc 8 (by omega)
      rw [Nat.lor_comm] at h2
      rw [h2]
      norm_num
    rw [heq] at hrec
    rw [heq]
    calc beVal (256 * acc + b) bs < (256 * acc + b + 1) * 256 ^ bs.length := hrec
      _ ≤ (acc + 1) * 256 ^ (b :: bs).length := by
            rw [List.length_cons, pow_succ]
            nlinarith [pow_pos (by norm_num : (0 : Nat) < 256) bs.length]

/-- Parsing back the bytes `Frame._set_data` emits for an unmasked TEXT
frame with a 7-bit length. -/
theorem parse_setData_text_7bit (fin : Bool) (payload : List Nat)
    (h : payload.length < 126) :
    parseFrame ((((fin.toNat &&& 0x1) <<< 7) ||| (OP_TEXT &&& 0xf)) ::
        ((((0 : Nat) &&& 0x1) <<< 7) ||| (payload.length &&& 0x7f)) :: payload) =
      .ok ⟨fin, OP_TEXT, false, 0, payload.length, payload, false⟩ := by
  set L := payload.length with hL
  have hb1 : (((0 : Nat) &&& 0x1) <<< 7) ||| (L &&& 0x7f) = L := by
    have : L &&& 0x7f = L := by
      rw [show (0x7f : Nat) = 2 ^ 7 - 1 by norm_num, Nat.and_pow_two_sub_one_eq_mod]
      omega
    simp [this]
  set b0 := (((fin.toNat &&& 0x1) <<< 7) ||| (OP_TEXT &&& 0xf)) with hb0
  rw [hb1]
  have hg0 : (b0 :: L :: payload).get? 0 = some b0 := rfl
  have hg1 : (b0 :: L :: payload).get? 1 = some L := rfl
  have hpl7 : L &&& 0x7f = L := by
    rw [show (0x7f : Nat) = 2 ^ 7 - 1 by norm_num, Nat.and_pow_two_sub_one_eq_mod]
    omega
  have hlen : parseLen (b0 :: L :: payload) (L &&& 0x7f) = .ok (L, 2) := by
    rw [parseLen, hpl7, if_neg (by omega), if_neg (by omega)]
  have hmaskbit : (L &&& 0x80 != 0) = false := by
    have : L &&& 0x80 = 0 := by
      rw [show (0x80 : Nat) = 2 ^ 7 by norm_num]
      exact and_two_pow_eq_zero (by omega)
    simp [this]
  have hkey : parseKey (b0 :: L :: payload) (L &&& 0x80 != 0) 2 = .ok (0x0, 2) := by
    rw [hmaskbit]; rfl
  rw [parseFrame_eq (b0 :: L :: payload) b0 L hg0 hg1 L 2 hlen 0x0 2 hkey]
  have hopc : b0 &&& 0x0f = OP_TEXT := by
    rw [hb0]; cases fin <;> decide
  have hfinbit : (b0 &&& 0x80 != 0) = fin := by
    rw [hb0]; cases fin <;> decide
  rw [parseBody, if_pos hopc]
  have hdrop : (b0 :: L :: payload).drop 2 = payload := rfl
  rw [hdrop, unmask_zero_ok payload L 0 (by omega)]
  rw [List.drop_zero, hL, List.take_length]
  rw [hopc, hfinbit, hmaskbit]

/-- Parsing back the bytes `Frame._set_data` emits for an unmasked TEXT
frame with a 16-bit extended length. -/
theorem parse_setData_text_16bit (fin : Bool) (payload : List Nat)
    (h1 : 126 ≤ payload.length) (h2 : payload.length < 65536) :
    parseFrame ((((fin.toNat &&& 0x1) <<< 7) ||| (OP_TEXT &&& 0xf)) ::
        ((((0 : Nat) &&& 0x1) <<< 7) ||| 0x7e) ::
        ((payload.length >>> (1 * 8)) &&& 0xff) ::
        ((payload.length >>> (0 * 8)) &&& 0xff) :: payload) =
      .ok ⟨fin, OP_TEXT, false, 0, payload.length, payload, false⟩ := by
  set L := payload.length with hL
  set b0 := (((fin.toNat &&& 0x1) <<< 7) ||| (OP_TEXT &&& 0xf)) with hb0
  have hb1 : ((((0 : Nat) &&& 0x1) <<< 7) ||| 0x7e) = 0x7e := by decide
  rw [hb1]
  set hi := (L >>> (1 * 8)) &&& 0xff with hhi
  set lo := (L >>> (0 * 8)) &&& 0xff with hlo
  set data := b0 :: 0x7e :: hi :: lo :: payload with hdata
  have hg0 : data.get? 0 = some b0 := rfl
  have hg1 : data.get? 1 = some (0x7e : Nat) := rfl
  have hival : hi = L / 256 := by
    rw [hhi, Nat.shiftRight_eq_div_pow, show (0xff : Nat) = 2 ^ 8 - 1 by norm_num,
      Nat.and_pow_two_sub_one_eq_mod]
    norm_num
    omega
  have hloval : lo = L % 256 := by
    rw [hlo, Nat.shiftRight_eq_div_pow, show (0xff : Nat) = 2 ^ 8 - 1 by norm_num,
      Nat.and_pow_two_sub_one_eq_mod]
    norm_num
  have hbe : beVal 0 ((data.drop 2).take 2) = L := by
    have hdt : (data.drop 2).take 2 = [hi, lo] := rfl
    rw [hdt, beVal_cons, beVal_cons, beVal_nil]
    have e1 : ((0 : Nat) <<< 8) ||| hi = hi := by simp
    rw [e1]
    have e2 : (hi <<< 8) ||| lo = 2 ^ 8 * hi + lo := by
      rw [Nat.lor_comm]
      exact lor_shiftLeft_eq lo hi 8 (by rw [hloval]; omega)
    rw [e2, hival, hloval]
    omega
  have hpl7 : (0x7e : Nat) &&& 0x7f = 126 := by decide
  have hlen : parseLen data ((0x7e : Nat) &&& 0x7f) = .ok (L, 4) := by
    rw [hpl7, parseLen, if_pos rfl, readBE_ok data 2 2 0 (by simp [hdata]), hbe]
  have hmaskbit : ((0x7e : Nat) &&& 0x80 != 0) = false := by decide
  have hkey : parseKey data ((0x7e : Nat) &&& 0x80 != 0) 4 = .ok (0x0, 4) := by
    rw [hmaskbit]; rfl
  rw [parseFrame_eq data b0 0x7e hg0 hg1 L 4 hlen 0x0 4 hkey]
  have hopc : b0 &&& 0x0f = OP_TEXT := by
    rw [hb0]; cases fin <;> decide
  have hfinbit : (b0 &&& 0x80 != 0) = fin := by
    rw [hb0]; cases fin <;> decide
  rw [parseBody, if_pos hopc]
  have hdrop : data.drop 4 = payload := rfl
  rw [hdrop, unmask_zero_ok payload L 0 (by omega)]
  rw [List.drop_zero, hL, List.take_length]
  rw [hopc, hfinbit, hmaskbit]

/-!
## Claim theorems
-/

set_option maxRecDepth 10000 in
/-- C5: For every Sec-WebSocket-Key `k`, the handshake accept value equals
`base64(SHA-1(k + "258EAFA5-E914-47DA-95CA-C5AB0DC85B11"))`; in particular
for `k = "dGhlIHNhbXBsZSBub25jZQ=="` it equals
`"s3pPLMBiTxaQ9kYGzzhZRbK+xOo="` (the RFC 6455 test vector). -/
theorem C5_handshake_accept :
    (∀ key : List Nat, getAccept key = b64encode (sha1 (key ++ strBytes wsGuid))) ∧
    getAcceptStr "dGhlIHNhbXBsZSBub25jZQ==" = "s3pPLMBiTxaQ9kYGzzhZRbK+xOo=" :=
  ⟨fun _ => rfl, by decide⟩

/-- C2 (code bug, evaluated at the failing input): in the 126 case
`payload_len` is the big-endian value of the following 2 bytes, but in the
127 case the code never resets `payload_len` to 0, so an extended length of
`[0,0,0,0,0,0,0,2]` decodes to `127 * 2^64 + 2` rather than 2 (the mask key
/ payload *are* read starting after those 8 bytes, as the payload shows). -/
theorem C2_len127_not_reset :
    parseFrame [0x88, 0x7e, 0x00, 0x02, 0xAB, 0xCD] =
      .ok ⟨true, OP_CLOSE, false, 0, 2, [0xAB, 0xCD], true⟩ ∧
    parseFrame [0x88, 0x7f, 0x00, 0x00, 0x00, 0x00, 0x00, 0x00, 0x00, 0x02, 0xAB, 0xCD] =
      .ok ⟨true, OP_CLOSE, false, 0, 127 * 2 ^ 64 + 2, [0xAB, 0xCD], true⟩ ∧
    127 * 2 ^ 64 + 2 ≠ 2 := by
  refine ⟨by decide, by decide, by decide⟩

/-- C8: for every frame constructed for output with the mask bit set
(truthy `mask`), `Frame._set_data` raises (no byte sequence is produced);
with the mask bit clear it always produces one and never takes the failure
path. -/
theorem C8_masked_encode_fails (fin opcode mask : Nat) (mask_key : Option Nat)
    (payload : List Nat) :
    (mask ≠ 0 → ∃ e, setData fin opcode mask mask_key payload = .error e) ∧
    ∃ bs, setData fin opcode 0 mask_key payload = .ok bs := by
  constructor
  · intro hm
    have hb : (mask != 0) = true := by simpa using hm
    simp only [setData, hb, if_true]
    cases mask_key
    · exact ⟨.missingMaskKey, rfl⟩
    · exact ⟨.todo, rfl⟩
  · simp only [setData, bne_self_eq_false, Bool.false_eq_true, if_false]
    exact ⟨_, rfl⟩

/-- Witness for C8 at a concrete frame. -/
theorem C8_masked_encode_fails_witness :
    ((1 : Nat) ≠ 0 ∧ ∃ e, setData 1 1 1 (some 0) [0x61] = .error e) ∧
    ∃ bs, setData 1 1 0 (some 0) [0x61] = .ok bs :=
  ⟨⟨by decide, (C8_masked_encode_fails 1 1 1 (some 0) [0x61]).1 (by decide)⟩,
   (C8_masked_encode_fails 1 1 0 (some 0) [0x61]).2⟩

/-- C7: each push sends exactly one outbound TEXT frame
(`fin=1, opcode=TEXT, mask=0`) whose payload is the JSON object with
`text = t`, `selections = [{start: len(t), end: len(t)}]`,
`title = "ghosttext-vim"`, `url = ""`, `syntax = ""`, where `t` is the
editor's lines joined by newline. -/
theorem C7_outbound_json (w : Worker) (lines : List String) :
    let text := String.intercalate "\n" lines
    updateFromVimActions lines =
      [.sendJsonFrame 1 OP_TEXT 0 (.obj
          [("text", .str text),
           ("selections", .arr [.obj [("start", .num text.length),
                                      ("end", .num text.length)]]),
           ("title", .str "ghosttext-vim"),
           ("url", .str ""),
           ("syntax", .str "")]),
       .fromThreadSet] ∧
    ((updateFromVimActions lines).filter isJsonSend).length = 1 ∧
    loopIter w false none true lines =
      (updateFromVimActions lines, if w.valid then .continueLoop w else .breakLoop w) := by
  refine ⟨rfl, rfl, ?_⟩
  rcases w with ⟨v, c⟩
  cases v <;> rfl

/-- C6: (1) a worker whose first-iteration receive returns nothing exits the
loop immediately with its state unchanged — in particular with `valid` still
false; (2) a registry entry with `valid = false` is never signalled by
`GhostNotify` (its `to_thread` event is untouched and it is not in the wait
list); (3) `valid` is monotonic: no loop iteration ever resets it. -/
theorem C6_first_timeout_validity :
    (∀ (w : Worker) (toThread : Bool) (lines : List String),
        w.valid = false →
        loopIter w true none toThread lines = ([], .breakLoop w) ∧
        ((loopIter w true none toThread lines).2.worker).valid = false) ∧
    (∀ (socks : List SockEntry) (i : Nat) (ws : SockEntry),
        socks.get? i = some ws → ws.valid = false →
        (ghostNotifySignal socks).get? i = some ws ∧ ws ∉ ghostNotifyWait socks) ∧
    (∀ (w : Worker) (first : Bool) (recv : Option (List Nat)) (toThread : Bool)
        (lines : List String),
        w.valid = true → ((loopIter w first recv toThread lines).2.worker).valid = true) := by
  refine ⟨?_, ?_, ?_⟩
  · intro w toThread lines hv
    exact ⟨rfl, hv⟩
  · intro socks i ws hg hv
    constructor
    · rw [List.get?_eq_getElem?, ghostNotifySignal, List.getElem?_map,
        ← List.get?_eq_getElem?, hg]
      simp [hv]
    · intro hmem
      rw [ghostNotifyWait] at hmem
      have := List.of_mem_filter hmem
      rw [hv] at this
      exact Bool.false_ne_true this
  · intro w first recv toThread lines hv
    rcases w with ⟨v, c⟩
    cases v
    · simp at hv
    · cases first <;> cases recv <;> try rfl
      all_goals {
        rename_i bytes
        cases hp : parseFrame bytes with
        | error e => simp [loopIter, hp, IterResult.worker]
        | ok f =>
          cases hc : f.closed <;>
            simp [loopIter, hp, hc, IterResult.worker]
      }

/-- Witness for C6 at concrete inputs: a fresh invalid worker times out and
stays invalid; a single invalid registry entry is not signalled; a valid
worker stays valid across an idle iteration. -/
theorem C6_first_timeout_validity_witness :
    ((⟨false, true⟩ : Worker).valid = false ∧
      loopIter ⟨false, true⟩ true none false [] = ([], .breakLoop ⟨false, true⟩) ∧
      ((loopIter ⟨false, true⟩ true none false []).2.worker).valid = false) ∧
    (([(⟨false, false, false⟩ : SockEntry)]).get? 0 = some ⟨false, false, false⟩ ∧
      (⟨false, false, false⟩ : SockEntry).valid = false ∧
      (ghostNotifySignal [⟨false, false, false⟩]).get? 0 = some ⟨false, false, false⟩ ∧
      (⟨false, false, false⟩ : SockEntry) ∉ ghostNotifyWait [⟨false, false, false⟩]) ∧
    ((⟨true, true⟩ : Worker).valid = true ∧
      ((loopIter ⟨true, true⟩ false none false []).2.worker).valid = true) := by
  refine ⟨⟨rfl, ?_⟩, ⟨rfl, rfl, ?_⟩, ⟨rfl, ?_⟩⟩
  · exact C6_first_timeout_validity.1 ⟨false, true⟩ false [] rfl
  · exact C6_first_timeout_validity.2.1 [⟨false, false, false⟩] 0 ⟨false, false, false⟩ rfl rfl
  · exact C6_first_timeout_validity.2.2 ⟨true, true⟩ false none false [] rfl

/-- C1 (amended): when a worker's receive loop decodes a CLOSE frame it
echoes a message to the editor, stops the loop, closes and clears the
socket — and because `self._conn` is set to `None` before the `break`, the
post-loop code sends *no* CLOSE frame in response (zero CLOSE frames are
sent on this path); other workers' registry entries are untouched by a
worker step. -/
theorem C1_close_frame_path :
    ∀ (w : Worker) (first : Bool) (bytes : List Nat) (f : Frame) (toThread : Bool)
      (lines : List String),
      parseFrame bytes = .ok f → f.closed = true →
      (let w1 := if first then { w with valid := true } else w
       loopIter w first (some bytes) toThread lines =
         ([.vimEcho closeEchoMsg, .connClose], .breakLoop { w1 with connSet := false }) ∧
       serveFinish { w1 with connSet := false } = [] ∧
       closeSendCount ([.vimEcho closeEchoMsg, .connClose] ++
         serveFinish { w1 with connSet := false }) = 0) ∧
      (∀ (workers : List Worker) (i j : Nat) (step : Worker → Worker),
        j ≠ i → (stepWorkerAt workers i step).get? j = workers.get? j) := by
  intro w first bytes f toThread lines hp hc
  constructor
  · refine ⟨?_, rfl, rfl⟩
    cases first <;> simp [loopIter, hp, hc]
  · intro workers i j step hne
    rw [stepWorkerAt]
    cases hg : workers.get? i
    · rfl
    · rw [List.get?_eq_getElem?, List.getElem?_set_ne (by omega), ← List.get?_eq_getElem?]

/-- Witness for C1 at a concrete masked CLOSE frame on a valid worker. -/
theorem C1_close_frame_path_witness :
    parseFrame [0x88, 0x80, 0x01, 0x02, 0x03, 0x04] =
      .ok ⟨true, OP_CLOSE, true, 0x04030201, 0, [], true⟩ ∧
    loopIter ⟨true, true⟩ false (some [0x88, 0x80, 0x01, 0x02, 0x03, 0x04]) false [] =
      ([.vimEcho closeEchoMsg, .connClose], .breakLoop ⟨true, false⟩) ∧
    serveFinish ⟨true, false⟩ = [] :=
  ⟨by decide,
   ((C1_close_frame_path ⟨true, true⟩ false [0x88, 0x80, 0x01, 0x02, 0x03, 0x04]
      ⟨true, OP_CLOSE, true, 0x04030201, 0, [], true⟩ false [] (by decide) rfl).1).1,
   ((C1_close_frame_path ⟨true, true⟩ false [0x88, 0x80, 0x01, 0x02, 0x03, 0x04]
      ⟨true, OP_CLOSE, true, 0x04030201, 0, [], true⟩ false [] (by decide) rfl).1).2.1⟩

/-- C1 counterexample to the claim as stated: on the CLOSE-frame path the
worker sends *zero* CLOSE frames in response, not exactly one — the actions
of the iteration plus the post-loop termination code contain no CLOSE-frame
send, because `self._conn` is `None` when the post-loop send is reached. -/
theorem C1_counterexample :
    parseFrame [0x88, 0x00] = .ok ⟨true, OP_CLOSE, false, 0, 0, [], true⟩ ∧
    (loopIter ⟨true, true⟩ false (some [0x88, 0x00]) false []).1 =
      [.vimEcho closeEchoMsg, .connClose] ∧
    closeSendCount ((loopIter ⟨true, true⟩ false (some [0x88, 0x00]) false []).1 ++
      serveFinish ((loopIter ⟨true, true⟩ false (some [0x88, 0x00]) false []).2.worker)) = 0 ∧
    closeSendCount ((loopIter ⟨true, true⟩ false (some [0x88, 0x00]) false []).1 ++
      serveFinish ((loopIter ⟨true, true⟩ false (some [0x88, 0x00]) false []).2.worker)) ≠ 1 := by
  refine ⟨by decide, rfl, rfl, by decide⟩

/-- C9: a `badOpcode` failure (the distinct `raise Exception(self.opcode)`)
happens exactly for opcodes that are neither TEXT nor CLOSE: any such
failure reports the parsed opcode and implies it is unsupported; the error
is distinct from the `IndexError` kind; and whenever both header bytes and
the whole declared header are present and the opcode is unsupported,
decoding does fail with exactly that error. -/
theorem C9_unsupported_opcode :
    (∀ (data : List Nat) (op : Nat),
      parseFrame data = .error (.badOpcode op) →
      op ≠ OP_TEXT ∧ op ≠ OP_CLOSE ∧ ∃ b0, data.get? 0 = some b0 ∧ op = b0 &&& 0x0f) ∧
    (∀ op : Nat, (ParseError.badOpcode op) ≠ ParseError.indexError) ∧
    (∀ (data : List Nat) (b0 b1 : Nat),
      data.get? 0 = some b0 → data.get? 1 = some b1 →
      b0 &&& 0x0f ≠ OP_TEXT → b0 &&& 0x0f ≠ OP_CLOSE →
      headerLen b1 ≤ data.length →
      parseFrame data = .error (.badOpcode (b0 &&& 0x0f))) := by
  refine ⟨parseFrame_badOpcode_inv, ?_, ?_⟩
  · intro op h
    cases h
  intro data b0 b1 hg0 hg1 h1 h8 hhdr
  obtain ⟨l, hlen⟩ := parseLen_ok_of_le data (b1 &&& 0x7f) (by
    rw [headerLen] at hhdr
    cases (b1 &&& 0x80 != 0) <;> simp at hhdr <;> omega)
  cases hmask : (b1 &&& 0x80 != 0) with
  | false =>
    have hkey : parseKey data (b1 &&& 0x80 != 0) (2 + extLenOf (b1 &&& 0x7f)) =
        .ok (0x0, 2 + extLenOf (b1 &&& 0x7f)) := by rw [hmask]; rfl
    rw [parseFrame_eq data b0 b1 hg0 hg1 l _ hlen 0x0 _ hkey, parseBody,
      if_neg h1, if_neg h8]
  | true =>
    have hhdr4 : 2 + extLenOf (b1 &&& 0x7f) + 4 ≤ data.length := by
      rw [headerLen, hmask] at hhdr
      simpa using hhdr
    obtain ⟨key, hkeyok⟩ := parseKey_true_ok data (2 + extLenOf (b1 &&& 0x7f)) hhdr4
    have hkey : parseKey data (b1 &&& 0x80 != 0) (2 + extLenOf (b1 &&& 0x7f)) =
        .ok (key, 2 + extLenOf (b1 &&& 0x7f) + 4) := by rw [hmask]; exact hkeyok
    rw [parseFrame_eq data b0 b1 hg0 hg1 l _ hlen key _ hkey, parseBody,
      if_neg h1, if_neg h8]

/-- Witness for C9: a frame with opcode 2 (BINARY, unsupported) raises the
distinct opcode error. -/
theorem C9_unsupported_opcode_witness :
    parseFrame [0x82, 0x01, 0xAA] = .error (.badOpcode 2) :=
  C9_unsupported_opcode.2.2 [0x82, 0x01, 0xAA] 0x82 0x01 rfl rfl
    (by decide) (by decide) (by decide)

/-- C10: decoding raises an out-of-range `IndexError` (never a `Frame`) on
each kind of short input: (1) the input ends before the extended-length
bytes it declares; (2) it ends before the 4-byte mask key it declares;
(3) it is a TEXT frame whose bytes after the header number fewer than the
parsed `payload_len`. -/
theorem C10_short_input_index_error :
    (∀ (data : List Nat) (b1 : Nat), data.get? 1 = some b1 →
        data.length < 2 + extLenOf (b1 &&& 0x7f) →
        parseFrame data = .error .indexError) ∧
    (∀ (data : List Nat) (b1 : Nat), data.get? 1 = some b1 →
        b1 &&& 0x80 ≠ 0 → data.length < 2 + extLenOf (b1 &&& 0x7f) + 4 →
        parseFrame data = .error .indexError) ∧
    (∀ (data : List Nat) (b0 b1 : Nat), data.get? 0 = some b0 → data.get? 1 = some b1 →
        b0 &&& 0x0f = OP_TEXT → headerLen b1 ≤ data.length →
        data.length - headerLen b1 < declaredLen data b1 →
        parseFrame data = .error .indexError) := by
  have len2 : ∀ (data : List Nat) (b1 : Nat), data.get? 1 = some b1 → 2 ≤ data.length := by
    intro data b1 hg1
    have := (List.get?_eq_some.mp hg1).1
    omega
  have get0 : ∀ (data : List Nat) (b1 : Nat), data.get? 1 = some b1 →
      ∃ b0, data.get? 0 = some b0 := by
    intro data b1 hg1
    have h2 := len2 data b1 hg1
    exact ⟨data[0], by rw [List.get?_eq_getElem?, List.getElem?_eq_getElem (by omega)]⟩
  refine ⟨?_, ?_, ?_⟩
  · intro data b1 hg1 hshort
    obtain ⟨b0, hg0⟩ := get0 data b1 hg1
    exact parseFrame_eq_lenError data b0 b1 hg0 hg1
      (parseLen_error_of_lt data (b1 &&& 0x7f) (len2 data b1 hg1) hshort)
  · intro data b1 hg1 hmaskp hshort
    obtain ⟨b0, hg0⟩ := get0 data b1 hg1
    by_cases hext : data.length < 2 + extLenOf (b1 &&& 0x7f)
    · exact parseFrame_eq_lenError data b0 b1 hg0 hg1
        (parseLen_error_of_lt data (b1 &&& 0x7f) (len2 data b1 hg1) hext)
    · obtain ⟨l, hlen⟩ := parseLen_ok_of_le data (b1 &&& 0x7f) (by omega)
      have hmaskb : (b1 &&& 0x80 != 0) = true := by simpa using hmaskp
      have hkeyerr : parseKey data (b1 &&& 0x80 != 0) (2 + extLenOf (b1 &&& 0x7f)) =
          .error .indexError := by
        rw [hmaskb]
        exact parseKey_true_error data _ (by omega)
      exact parseFrame_eq_keyError data b0 b1 hg0 hg1 l _ hlen hkeyerr
  · intro data b0 b1 hg0 hg1 hop hhdr hshort
    have hext : 2 + extLenOf (b1 &&& 0x7f) ≤ data.length := by
      rw [headerLen] at hhdr
      cases (b1 &&& 0x80 != 0) <;> simp at hhdr <;> omega
    obtain ⟨l, hlen⟩ := parseLen_ok_of_le data (b1 &&& 0x7f) hext
    have hdecl : declaredLen data b1 = l := by rw [declaredLen, hlen]
    rw [hdecl] at hshort
    cases hmask : (b1 &&& 0x80 != 0) with
    | false =>
      have hkey : parseKey data (b1 &&& 0x80 != 0) (2 + extLenOf (b1 &&& 0x7f)) =
          .ok (0x0, 2 + extLenOf (b1 &&& 0x7f)) := by rw [hmask]; rfl
      have hhdrv : headerLen b1 = 2 + extLenOf (b1 &&& 0x7f) := by
        rw [headerLen, hmask]; simp
      rw [parseFrame_eq data b0 b1 hg0 hg1 l _ hlen 0x0 _ hkey, parseBody, if_pos hop,
        unmask_error (data.drop (2 + extLenOf (b1 &&& 0x7f))) 0x0 l 0 (by omega)
          (by rw [List.length_drop]; omega)]
    | true =>
      have hhdrv : headerLen b1 = 2 + extLenOf (b1 &&& 0x7f) + 4 := by
        rw [headerLen, hmask]; simp
      obtain ⟨key, hkeyok⟩ := parseKey_true_ok data (2 + extLenOf (b1 &&& 0x7f)) (by omega)
      have hkey : parseKey data (b1 &&& 0x80 != 0) (2 + extLenOf (b1 &&& 0x7f)) =
          .ok (key, 2 + extLenOf (b1 &&& 0x7f) + 4) := by rw [hmask]; exact hkeyok
      rw [parseFrame_eq data b0 b1 hg0 hg1 l _ hlen key _ hkey, parseBody, if_pos hop,
        unmask_error (data.drop (2 + extLenOf (b1 &&& 0x7f) + 4)) key l 0 (by omega)
          (by rw [List.length_drop]; omega)]

/-- Witness for C10: a frame declaring a 16-bit extended length but ending
after one extended byte; a masked frame ending inside its mask key; a TEXT
frame declaring 5 payload bytes but carrying 2. -/
theorem C10_short_input_index_error_witness :
    parseFrame [0x81, 0x7e, 0x00] = .error .indexError ∧
    parseFrame [0x81, 0x85, 0x01, 0x02] = .error .indexError ∧
    parseFrame [0x81, 0x05, 0x41, 0x41] = .error .indexError :=
  ⟨C10_short_input_index_error.1 [0x81, 0x7e, 0x00] 0x7e rfl (by decide),
   C10_short_input_index_error.2.1 [0x81, 0x85, 0x01, 0x02] 0x85 rfl (by decide) (by decide),
   C10_short_input_index_error.2.2 [0x81, 0x05, 0x41, 0x41] 0x81 0x05 rfl rfl
     (by decide) (by decide) (by decide)⟩

/-- C3 (amended): for every parsed frame with the mask bit set whose opcode
is TEXT, after `payload_len` and the 4-byte mask key are consumed, payload
byte `i` is the wire payload byte XORed with wire mask-key byte `i mod 4`;
and with wire mask-key bytes `01 02 03 04` and payload `41 41 41 41 41` the
result is `[0x40, 0x43, 0x42, 0x45, 0x40]`.  (A masked CLOSE frame is *not*
unmasked — see the counterexample.) -/
theorem C3_masked_text_unmasking :
    (∀ (data : List Nat) (f : Frame),
      parseFrame data = .ok f → f.opcode = OP_TEXT → f.mask = true →
      (∀ b ∈ data, b < 256) →
      ∀ i, i < f.payload_len →
        f.payload.get? i = some
          ((data.getD (2 + extLenOf ((data.getD 1 0) &&& 0x7f) + 4 + i) 0) ^^^
           (data.getD (2 + extLenOf ((data.getD 1 0) &&& 0x7f) + i % 4) 0))) ∧
    parseFrame [0x81, 0x85, 0x01, 0x02, 0x03, 0x04, 0x41, 0x41, 0x41, 0x41, 0x41] =
      .ok ⟨true, OP_TEXT, true, 0x04030201, 5, [0x40, 0x43, 0x42, 0x45, 0x40], false⟩ := by
  constructor
  · intro data f hp hop hmask hbytes i hi
    obtain ⟨b0, b1, pl, nxt1, key, nxt2, hg0, hg1, hlen, hkey, hbody⟩ :=
      parseFrame_ok_inv data f hp
    obtain ⟨hffin, hfop, hfmask, hfkey, hfpl, hdisj⟩ :=
      parseBody_ok_inv data _ _ _ _ _ _ f hbody
    have hb1D : data.getD 1 0 = b1 := getD_eq_of_get? hg1
    have hopc : b0 &&& 0x0f = OP_TEXT := hfop.symm.trans hop
    have hmb : (b1 &&& 0x80 != 0) = true := hfmask.symm.trans hmask
    rw [hmb] at hkey
    obtain ⟨hnxt2, k0, k1, k2, k3, hk0, hk1, hk2, hk3, hkeyv⟩ :=
      parseKey_true_char data nxt1 key nxt2 hkey
    have hnxt1 : nxt1 = 2 + extLenOf (b1 &&& 0x7f) := parseLen_ok_nxt data _ pl nxt1 hlen
    rcases hdisj with ⟨-, -, hum⟩ | ⟨hne, -⟩
    · rw [hfpl] at hi
      obtain ⟨hlenp, hchar⟩ := unmask_ok_char (data.drop nxt2) key pl 0 f.payload hum
      rw [hchar i hi]
      rw [Nat.zero_add, getD_drop, hb1D]
      have hik4 : i % 4 < 4 := by omega
      have hkb := maskKey_byte k0 k1 k2 k3
        (hbytes k0 ((List.get?_eq_some.mp hk0).2 ▸ data.getElem_mem _))
        (hbytes k1 ((List.get?_eq_some.mp hk1).2 ▸ data.getElem_mem _))
        (hbytes k2 ((List.get?_eq_some.mp hk2).2 ▸ data.getElem_mem _))
        (hbytes k3 ((List.get?_eq_some.mp hk3).2 ▸ data.getElem_mem _))
        (i % 4) hik4
      rw [hkeyv, hkb]
      have e1 : nxt2 + i = 2 + extLenOf (b1 &&& 0x7f) + 4 + i := by omega
      rw [e1]
      have hm4 : i % 4 = 0 ∨ i % 4 = 1 ∨ i % 4 = 2 ∨ i % 4 = 3 := by omega
      rcases hm4 with h | h | h | h <;> rw [h] <;>
        simp only [List.getD_cons_zero, List.getD_cons_succ] <;>
        [rw [show 2 + extLenOf (b1 &&& 0x7f) + 0 = nxt1 by omega, getD_eq_of_get? hk0];
         rw [show 2 + extLenOf (b1 &&& 0x7f) + 1 = nxt1 + 1 by omega, getD_eq_of_get? hk1];
         rw [show 2 + extLenOf (b1 &&& 0x7f) + 2 = nxt1 + 2 by omega, getD_eq_of_get? hk2];
         rw [show 2 + extLenOf (b1 &&& 0x7f) + 3 = nxt1 + 3 by omega, getD_eq_of_get? hk3]]
    · exact absurd hopc hne
  · decide

/-- Witness for C3 at the spec's concrete vector (first payload byte). -/
theorem C3_masked_text_unmasking_witness :
    (⟨true, OP_TEXT, true, 0x04030201, 5, [0x40, 0x43, 0x42, 0x45, 0x40],
        false⟩ : Frame).payload.get? 0 = some (0x41 ^^^ 0x01) :=
  C3_masked_text_unmasking.1
    [0x81, 0x85, 0x01, 0x02, 0x03, 0x04, 0x41, 0x41, 0x41, 0x41, 0x41]
    ⟨true, OP_TEXT, true, 0x04030201, 5, [0x40, 0x43, 0x42, 0x45, 0x40], false⟩
    (by decide) rfl rfl (by decide) 0 (by decide)

/-- C3 counterexample to the claim as stated: a masked CLOSE frame's payload
is *not* XORed with the mask key — `Frame._parse` only unmasks TEXT frames,
so the payload byte `0x41` is exposed raw instead of `0x41 ^^^ 0x01`. -/
theorem C3_counterexample :
    parseFrame [0x88, 0x81, 0x01, 0x02, 0x03, 0x04, 0x41] =
      .ok ⟨true, OP_CLOSE, true, 0x04030201, 1, [0x41], true⟩ ∧
    (0x41 : Nat) ≠ 0x41 ^^^ 0x01 := by
  refine ⟨by decide, by decide⟩

/-- C4 (code bug, with the intact part proved): for every well-formed
unmasked TEXT frame (mask bit clear, parsed `payload_len` equal to the
number of payload bytes present) whose length field does *not* use the
64-bit (127) form, encoding the decoded frame reproduces an equivalent
frame — same `fin`, same opcode, same payload bytes.  For the 64-bit form
the roundtrip is impossible: decoding already raises an `IndexError`
because the 127 branch never resets `payload_len` (the same slip as C2),
as evaluated on the well-formed frame `[0x81, 0x7f, 0,0,0,0,0,0,0,0]`
(declared length 0, zero payload bytes present). -/
theorem C4_encode_decode_roundtrip :
    (∀ (data : List Nat), (∀ b ∈ data, b < 256) →
      ∀ (f : Frame), parseFrame data = .ok f → f.opcode = OP_TEXT → f.mask = false →
      (data.getD 1 0) &&& 0x7f ≠ 127 →
      data.length = headerLen (data.getD 1 0) + f.payload_len →
      ∃ bytes,
        setData f.fin.toNat f.opcode f.mask.toNat (some f.mask_key) f.payload = .ok bytes ∧
        ∃ f2, parseFrame bytes = .ok f2 ∧ f2.fin = f.fin ∧ f2.opcode = f.opcode ∧
          f2.payload = f.payload) ∧
    parseFrame [0x81, 0x7f, 0x00, 0x00, 0x00, 0x00, 0x00, 0x00, 0x00, 0x00] =
      .error .indexError := by
  constructor
  · intro data hbytes f hp hop hmask h127 hWF
    obtain ⟨b0, b1, pl, nxt1, key, nxt2, hg0, hg1, hlen, hkey, hbody⟩ :=
      parseFrame_ok_inv data f hp
    obtain ⟨hffin, hfop, hfmask, hfkey, hfpl, hdisj⟩ :=
      parseBody_ok_inv data _ _ _ _ _ _ f hbody
    have hb1D : data.getD 1 0 = b1 := getD_eq_of_get? hg1
    rw [hb1D] at h127 hWF
    have hopc : b0 &&& 0x0f = OP_TEXT := hfop.symm.trans hop
    have hmb : (b1 &&& 0x80 != 0) = false := hfmask.symm.trans hmask
    rw [hmb, parseKey_false] at hkey
    cases hkey
    rcases hdisj with ⟨-, -, hum⟩ | ⟨hne, -⟩
    swap
    · exact absurd hopc hne
    have hpayload : f.payload = (data.drop nxt1).take pl :=
      unmask_zero_inv (data.drop nxt1) pl 0 f.payload hum
    have hnxt1 : nxt1 = 2 + extLenOf (b1 &&& 0x7f) := parseLen_ok_nxt data _ pl nxt1 hlen
    have hhdr : headerLen b1 = nxt1 := by
      rw [headerLen, hmb]
      simp only [Bool.false_eq_true, if_false]
      omega
    have hlendata : data.length = nxt1 + pl := by rw [hWF, hhdr, hfpl]
    have hdroplen : (data.drop nxt1).length = pl := by rw [List.length_drop]; omega
    have hpay2 : f.payload = data.drop nxt1 := by
      rw [hpayload, List.take_of_length_le (le_of_eq hdroplen)]
    have hplen : f.payload.length = pl := by rw [hpay2, hdroplen]
    have hplbound : pl < 65536 := by
      by_cases h126 : b1 &&& 0x7f = 126
      · have hext2 : extLenOf (b1 &&& 0x7f) = 2 := by rw [extLenOf, if_pos h126]
        rw [parseLen, if_pos h126, readBE_ok data 2 2 0 (by omega)] at hlen
        have hplv : pl = beVal 0 ((data.drop 2).take 2) :=
          congrArg Prod.fst (Except.ok.inj hlen) |>.symm
        have hlen2 : ((data.drop 2).take 2).length = 2 := by
          rw [List.length_take, List.length_drop]
          omega
        have hbnd := beVal_lt ((data.drop 2).take 2) 0
          (fun x hx => hbytes x (List.mem_of_mem_drop (List.mem_of_mem_take hx)))
        rw [hlen2] at hbnd
        norm_num at hbnd
        omega
      · by_cases h127' : b1 &&& 0x7f = 127
        · exact absurd h127' h127
        · rw [parseLen, if_neg h126, if_neg h127'] at hlen
          have hplv : pl = b1 &&& 0x7f :=
            congrArg Prod.fst (Except.ok.inj hlen) |>.symm
          have : b1 &&& 0x7f ≤ 0x7f := Nat.and_le_right
          omega
    rw [hop, hmask]
    simp only [Bool.toNat_false]
    by_cases hsmall : f.payload.length < 126
    · refine ⟨_, ?_,
        ⟨f.fin, OP_TEXT, false, 0, f.payload.length, f.payload, false⟩,
        parse_setData_text_7bit f.fin f.payload hsmall, rfl, rfl, rfl⟩
      simp only [setData]
      rw [if_neg (by omega : ¬ 126 ≤ f.payload.length),
        if_neg (by decide : ¬ (((0 : Nat) != 0) = true))]
      rfl
    · refine ⟨_, ?_,
        ⟨f.fin, OP_TEXT, false, 0, f.payload.length, f.payload, false⟩,
        parse_setData_text_16bit f.fin f.payload (by omega) (by omega), rfl, rfl, rfl⟩
      simp only [setData]
      rw [if_pos (by omega : 126 ≤ f.payload.length),
        if_pos (show f.payload.length < 1 <<< 16 by
          rw [show ((1 : Nat) <<< 16) = 65536 by decide]; omega),
        if_neg (by decide : ¬ (((0 : Nat) != 0) = true))]
      rfl
  · decide

/-- Witness for C4 at the concrete well-formed unmasked TEXT frame
`[0x81, 0x02, 0x61, 0x62]`. -/
theorem C4_encode_decode_roundtrip_witness :
    ∃ bytes,
      setData (true : Bool).toNat OP_TEXT (false : Bool).toNat (some 0) [0x61, 0x62] =
        .ok bytes ∧
      ∃ f2, parseFrame bytes = .ok f2 ∧ f2.fin = true ∧ f2.opcode = OP_TEXT ∧
        f2.payload = [0x61, 0x62] :=
  C4_encode_decode_roundtrip.1 [0x81, 0x02, 0x61, 0x62] (by decide)
    ⟨true, OP_TEXT, false, 0, 2, [0x61, 0x62], false⟩ (by decide) rfl rfl
    (by decide) (by decide)

end VGT
